import Mathlib

/-!
Shallow embedding of the voice-memo application (repository `wqwl611/voice`).

The data model comes from `src/unnamed/part_000` (the `Memo` interface,
`PlaybackMode` enum and `PLAYBACK_SPEEDS` list).  The operations come from
`src/unnamed/part_001` (the `App` component): `playMemo`,
`handlePlaybackEnded`, `skipTime`, the scrubber `onChange` handler,
`togglePlaybackMode`, `cycleSpeed`, `startRecording`, `stopRecording` with
its `mediaRecorder.onstop` continuation, `deleteMemo` and `filteredMemos`.

Modelling conventions:
* React state hooks become fields of a single `AppState` record; a
  `setX(v)` call becomes a record update.
* The single `HTMLAudioElement` (`audioRef`) is the handle described in the
  spec's external-interface section.  Its event listeners (installed in the
  first `useEffect`) deterministically mirror handle calls into React
  state, so they are folded into the operations: a successful `play()`
  fires the `play` event which runs `setIsPlaying(true)`; `pause()` fires
  `pause` which runs `setIsPlaying(false)`; writing `currentTime` is
  mirrored into `playbackTime` by `timeupdate`.  Whether `play()` resolves
  is outside the program, so it is an explicit `playOk : Bool` argument.
* Asynchronous results from the platform (microphone permission, fresh
  object URLs, `Date.now()`) are explicit arguments.
* Times, durations and rates (JS `number`s holding seconds or rate
  multipliers) are modelled as `ℚ`; byte blobs as `List Nat`.
-/

namespace Voice

/-- The `Memo` interface of `src/unnamed/part_000`: id, title, object URL,
duration in seconds, creation timestamp and the recorded blob. -/
structure Memo where
  id : String
  title : String
  url : String
  duration : ℚ
  createdAt : Nat
  blob : List Nat
deriving DecidableEq

/-- The `PlaybackMode` enum of `src/unnamed/part_000`. -/
inductive PlaybackMode where
  | SEQUENTIAL
  | LOOP_ONE
  | LOOP_ALL
deriving DecidableEq

/-- `PLAYBACK_SPEEDS = [0.5, 1.0, 1.25, 1.5, 2.0]` from `src/unnamed/part_000`. -/
def PLAYBACK_SPEEDS : List ℚ := [1/2, 1, 5/4, 3/2, 2]

/-- The React state of the `App` component of `src/unnamed/part_001`, plus
the pieces of platform state the claims mention: the audio handle's live
`playbackRate` (`audioRate`) and its source (`audioSrc`), the recording
refs (`audioChunksRef` as `audioChunks`, whether
`mediaRecorderRef.current` is non-null as `recorderSet`), and the
environment captured by the `mediaRecorder.onstop` closure.  That closure
is created inside `startRecording`, so the `memos` and `recordingTime`
consts it reads are the values of the render that started the session —
React state reads in a closure are not live — and they stay fixed until
`onstop` runs; they are the fields `capturedMemos` and `capturedTime`.
(The store prepend in `onstop` uses the functional `setMemos(prev => ...)`
updater and therefore does act on the live store.) -/
structure AppState where
  memos : List Memo
  activeMemoId : Option String
  isRecording : Bool
  recordingTime : ℚ
  isPlaying : Bool
  playbackTime : ℚ
  duration : ℚ
  playbackRate : ℚ
  playbackMode : PlaybackMode
  searchQuery : String
  audioSrc : String
  audioRate : ℚ
  audioChunks : List (List Nat)
  recorderSet : Bool
  capturedMemos : List Memo
  capturedTime : ℚ
deriving DecidableEq

/-- JavaScript's `Array.prototype.findIndex`, with `-1` rendered as
`none`: returns the first index whose element satisfies `p`. -/
def jsFindIndex {α : Type} (p : α → Bool) : List α → Option Nat
  | [] => none
  | a :: as => if p a then some 0 else (jsFindIndex p as).map (· + 1)

/-- `playMemo` (`src/unnamed/part_001` lines 90-100).  If the tapped memo is
already active it toggles play/pause on the handle (position untouched);
otherwise it sets the active id, swaps the handle's source and calls
`load()` and `play()`, the rejection of the latter being caught and only
logged.  The src assignment and `load()` run the HTML media element load
algorithm, which resets the element's position to 0 and its live
`playbackRate` to `defaultPlaybackRate` (never changed here, so 1.0); the
`[playbackRate]` effect does not rerun — the React `playbackRate` state is
unchanged — and nothing else re-applies the stored rate, so the live rate
stays at the default after a track change.  `playOk` says whether `play()`
resolved; only a resolved `play()` fires the `play` event that sets
`isPlaying` to true. -/
def playMemo (playOk : Bool) (memo : Memo) (s : AppState) : AppState :=
  if s.activeMemoId = some memo.id then
    if s.isPlaying then { s with isPlaying := false }
    else if playOk then { s with isPlaying := true } else s
  else
    let s1 : AppState :=
      { s with activeMemoId := some memo.id, audioSrc := memo.url, playbackTime := 0,
               audioRate := 1 }
    if playOk then { s1 with isPlaying := true } else s1

/-- `skipTime` (`src/unnamed/part_001` lines 102-105): clamp
`currentTime + seconds` into `[0, duration]` and write it back to the
handle (mirrored into `playbackTime` by `timeupdate`). -/
def skipTime (seconds : ℚ) (s : AppState) : AppState :=
  { s with playbackTime := min (max (s.playbackTime + seconds) 0) s.duration }

/-- The upper bound of the scrubber range input
(`src/unnamed/part_001` line 332): `max={duration || 100}`, i.e. 100 when
the duration is 0 (falsy), the duration otherwise. -/
def scrubberMax (s : AppState) : ℚ :=
  if s.duration = 0 then 100 else s.duration

/-- The scrubber `onChange` handler (`src/unnamed/part_001` lines 334-337):
writes the chosen value to the handle's `currentTime` and to
`playbackTime` with no clamping of its own; the range input itself only
emits values in `[0, scrubberMax]`. -/
def scrubberSeek (v : ℚ) (s : AppState) : AppState :=
  { s with playbackTime := v }

/-- `togglePlaybackMode` (`src/unnamed/part_001` lines 107-111): advance in
the cycle `[LOOP_ALL, LOOP_ONE, SEQUENTIAL]` wrapping around. -/
def togglePlaybackMode (s : AppState) : AppState :=
  let modes := [PlaybackMode.LOOP_ALL, PlaybackMode.LOOP_ONE, PlaybackMode.SEQUENTIAL]
  let next :=
    match jsFindIndex (fun m => decide (m = s.playbackMode)) modes with
    | some i => modes.getD ((i + 1) % modes.length) PlaybackMode.LOOP_ALL
    | none => modes.getD 0 PlaybackMode.LOOP_ALL
  { s with playbackMode := next }

/-- `cycleSpeed` (`src/unnamed/part_001` lines 113-117): advance to the
next entry of `PLAYBACK_SPEEDS` wrapping around (JS `indexOf` yields `-1`
on a miss, and `(-1 + 1) % 5 = 0`).  The `[playbackRate]` effect
(lines 62-66) immediately applies the new rate to the handle. -/
def cycleSpeed (s : AppState) : AppState :=
  let next :=
    match jsFindIndex (fun x => decide (x = s.playbackRate)) PLAYBACK_SPEEDS with
    | some i => PLAYBACK_SPEEDS.getD ((i + 1) % PLAYBACK_SPEEDS.length) 1
    | none => PLAYBACK_SPEEDS.getD 0 1
  { s with playbackRate := next, audioRate := next }

/-- The rate-setting path as a single step: `setPlaybackRate(r)` followed
by the `[playbackRate]` effect (`src/unnamed/part_001` lines 62-66) that
writes the new rate to the live handle.  `cycleSpeed` is
`setRate` at the next entry of the speed list. -/
def setRate (r : ℚ) (s : AppState) : AppState :=
  { s with playbackRate := r, audioRate := r }

/-- `startRecording` (`src/unnamed/part_001` lines 120-173).  It
unconditionally sets `isRecording`, pauses the handle and clears
`isPlaying`; then it requests the microphone.  `granted` is the outcome of
`getUserMedia`: on grant a fresh `MediaRecorder` is stored in the ref, the
chunk buffer is reset, and the `onstop` closure is installed — capturing
this render's `memos` and `recordingTime` consts; on rejection the catch
arm alerts and resets `isRecording`.  Note there is no guard on
`isRecording` anywhere in the function. -/
def startRecording (granted : Bool) (s : AppState) : AppState :=
  let s1 : AppState := { s with isRecording := true, isPlaying := false }
  if granted then
    { s1 with recorderSet := true, audioChunks := [],
              capturedMemos := s.memos, capturedTime := s.recordingTime }
  else
    { s1 with isRecording := false }

/-- `ondataavailable` (`src/unnamed/part_001` lines 132-136): a non-empty
chunk delivered by the recorder is appended to the buffer. -/
def dataAvailable (chunk : List Nat) (s : AppState) : AppState :=
  if chunk.length > 0 then { s with audioChunks := s.audioChunks ++ [chunk] } else s

/-- The recording timer callback (`src/unnamed/part_001` lines 163-166):
`recordingTime` tracks the wall-clock delta since the session started. -/
def timerTick (elapsed : ℚ) (s : AppState) : AppState :=
  { s with recordingTime := elapsed }

/-- `mediaRecorder.onstop` (`src/unnamed/part_001` lines 138-159): build
the blob from the buffered chunks, create the new `Memo`, prepend it to
the live store (functional `setMemos` updater), reset the elapsed counter,
auto-select the memo as active and point the handle's source at it.  The
closure's plain reads of React state are the values captured when
`startRecording` installed it: the title number comes from the captured
store's size plus one and — crucially — `duration: recordingTime` is the
captured elapsed value from the render that started the session (0 in the
normal flow), not the live elapsed time at stop; the interval timer only
ever calls `setRecordingTime`, which cannot change the captured const, and
`onstop` is never reinstalled.  `newId` stands for
`Date.now().toString()`, `url` for `URL.createObjectURL(blob)` and `now`
for the `Date.now()` used for `createdAt`. -/
def finalizeRecording (newId url : String) (now : Nat) (s : AppState) : AppState :=
  let newMemo : Memo :=
    { id := newId
      title := "New Recording " ++ toString (s.capturedMemos.length + 1)
      url := url
      duration := s.capturedTime
      createdAt := now
      blob := s.audioChunks.flatten }
  { s with memos := newMemo :: s.memos
           recordingTime := 0
           activeMemoId := some newMemo.id
           audioSrc := newMemo.url }

/-- `stopRecording` (`src/unnamed/part_001` lines 175-181): guarded by
`mediaRecorderRef.current && isRecording`; when active it stops the
recorder — which fires `onstop`, i.e. `finalizeRecording` — clears
`isRecording` and the timer.  (For the store, captured and live values
coincide in every reachable run: while the full-screen recording overlay
is shown no store mutation is reachable and playback is paused, so no
`ended` event can fire.  For `recordingTime` they do not coincide: the
timer advances the live value while the captured one stays at its
start-of-session reading.) -/
def stopRecording (newId url : String) (now : Nat) (s : AppState) : AppState :=
  if s.recorderSet && s.isRecording then
    finalizeRecording newId url now { s with isRecording := false }
  else s

/-- `deleteMemo` (`src/unnamed/part_001` lines 183-190): drop the matching
entry from the store; when the deleted id is the active one, also clear
the active id, pause the handle and detach its source. -/
def deleteMemo (id : String) (s : AppState) : AppState :=
  let s1 : AppState := { s with memos := s.memos.filter (fun m => decide (m.id ≠ id)) }
  if s.activeMemoId = some id then
    { s1 with activeMemoId := none, isPlaying := false, audioSrc := "" }
  else s1

/-- The title input `onChange` (`src/unnamed/part_001` lines 315-318):
rename the memo with the given id. -/
def renameMemo (id : String) (newTitle : String) (s : AppState) : AppState :=
  { s with memos := s.memos.map (fun m => if m.id = id then { m with title := newTitle } else m) }

/-- Lower-case a string character-wise, the model of JS `toLowerCase()`. -/
def lowerStr (t : String) : List Char :=
  t.data.map Char.toLower

/-- Helper for `containsSub`: does `hay` start with `needle`? -/
def startsWithChars : List Char → List Char → Bool
  | [], _ => true
  | _ :: _, [] => false
  | n :: ns, h :: hs => decide (n = h) && startsWithChars ns hs

/-- JS `String.prototype.includes`: does `hay` contain `needle` as a
contiguous substring?  (The empty needle is contained in everything.) -/
def containsSub (needle : List Char) : List Char → Bool
  | [] => needle.isEmpty
  | h :: hs => startsWithChars needle (h :: hs) || containsSub needle hs

/-- The predicate of `filteredMemos` (`src/unnamed/part_001` lines
193-195): `m.title.toLowerCase().includes(searchQuery.toLowerCase())`. -/
def titleMatches (m : Memo) (query : String) : Bool :=
  containsSub (lowerStr query) (lowerStr m.title)

/-- `filteredMemos` (`src/unnamed/part_001` lines 193-195). -/
def filteredMemos (s : AppState) : List Memo :=
  s.memos.filter (fun m => titleMatches m s.searchQuery)

/-- The store operations named by the spec: `insertFront` is the
`setMemos(prev => [newMemo, ...prev])` of `onstop`, `remove` the
`setMemos(prev => prev.filter(m => m.id !== id))` of `deleteMemo`. -/
inductive StoreOp where
  | insertFront (m : Memo)
  | remove (id : String)

/-- Apply one store operation. -/
def applyOp (ms : List Memo) : StoreOp → List Memo
  | StoreOp.insertFront m => m :: ms
  | StoreOp.remove id => ms.filter (fun x => decide (x.id ≠ id))

/-- Run a sequence of store operations from a given store. -/
def runOpsFrom (ms : List Memo) (ops : List StoreOp) : List Memo :=
  ops.foldl applyOp ms

/-- Run a sequence of store operations from the initially empty store. -/
def runOps (ops : List StoreOp) : List Memo :=
  runOpsFrom [] ops

/-- The ids handed to the `insertFront` operations of a sequence, in
order.  In the program these are the `Date.now().toString()` values minted
at each finalization. -/
def insertedIds : List StoreOp → List String
  | [] => []
  | StoreOp.insertFront m :: rest => m.id :: insertedIds rest
  | StoreOp.remove _ :: rest => insertedIds rest

/-- The cross-component invariant of the spec's data model: the active id,
when set, references a memo present in the store. -/
def activeValid (s : AppState) : Prop :=
  ∀ a, s.activeMemoId = some a → ∃ m, m ∈ s.memos ∧ m.id = a

/-- A quiescent state used by the concrete witnesses. -/
def baseState : AppState :=
  { memos := []
    activeMemoId := none
    isRecording := false
    recordingTime := 0
    isPlaying := false
    playbackTime := 0
    duration := 0
    playbackRate := 1
    playbackMode := PlaybackMode.LOOP_ALL
    searchQuery := ""
    audioSrc := ""
    audioRate := 1
    audioChunks := []
    recorderSet := false
    capturedMemos := []
    capturedTime := 0 }

/-- Concrete memo used by the witnesses. -/
def memoA : Memo :=
  { id := "1", title := "Memo A", url := "blob:a", duration := 10, createdAt := 100, blob := [] }

/-- Concrete memo used by the witnesses. -/
def memoB : Memo :=
  { id := "2", title := "Memo B", url := "blob:b", duration := 20, createdAt := 200, blob := [] }


/-- Witness state for the delete-active claim: two memos, the first one
active and playing. -/
def w2 : AppState :=
  { baseState with memos := [memoA, memoB], activeMemoId := some memoA.id,
                   isPlaying := true }

/-- Fresh id handed to the finalization witness. -/
def idNew : String := "99"

/-- Fresh object URL handed to the finalization witness. -/
def urlNew : String := "blob:new"

/-- The concrete recording run exhibiting the stale-closure duration:
start a session from the quiescent state, receive one chunk, let the timer
reach 3.2 s, then stop. -/
def staleRun : AppState :=
  stopRecording idNew urlNew 500
    (timerTick (16 / 5) (dataAvailable [1, 2] (startRecording true baseState)))

/-- Witness operation sequence for the id-uniqueness claim. -/
def w4ops : List StoreOp :=
  [StoreOp.insertFront memoA, StoreOp.insertFront memoB, StoreOp.remove memoA.id]

/-- Witness state for the start-while-active claim: a live recording
session that has already buffered a chunk. -/
def w5 : AppState :=
  { baseState with isRecording := true, recorderSet := true, audioChunks := [[7]] }

/-- Concrete state for the rate-across-track-change claim: memo A active,
memo B about to be selected. -/
def w6 : AppState :=
  { baseState with memos := [memoA, memoB], activeMemoId := some memoA.id,
                   isPlaying := true }

/-- Witness state for the clamping claim: a loaded track of duration 10 at
position 5. -/
def w7 : AppState :=
  { baseState with memos := [memoA], activeMemoId := some memoA.id,
                   duration := 10, playbackTime := 5 }

/-- Counterexample state for the clamping claim: active memo whose
metadata has not loaded yet, so `duration` is still 0 and the scrubber's
range maximum falls back to 100. -/
def w7bad : AppState :=
  { baseState with memos := [memoA], activeMemoId := some memoA.id,
                   duration := 0, playbackTime := 0 }

/-- Witness state for the search claim. -/
def w9 : AppState :=
  { baseState with memos := [memoA, memoB], searchQuery := "memo b" }

/-- Witness state for the delete-inactive frame claim: memo A active and
playing while memo B gets deleted. -/
def w10 : AppState :=
  { baseState with memos := [memoA, memoB], activeMemoId := some memoA.id,
                   isPlaying := true, playbackTime := 3, duration := 10,
                   audioSrc := "blob:a" }

/-! ### Helper lemmas -/

/-- Claim C2: deleting the memo whose id is the current active id clears
`activeMemoId` and sets `isPlaying` to false; moreover `deleteMemo` (for
any id) preserves the invariant that the active id, when set, references a
memo present in the store, so no dangling active reference arises. -/
theorem delete_active_clears_and_stops (s : AppState) (id : String) :
    (s.activeMemoId = some id →
      (deleteMemo id s).activeMemoId = none ∧ (deleteMemo id s).isPlaying = false) ∧
    (∀ d, activeValid s → activeValid (deleteMemo d s)) := by
  constructor
  · intro h
    simp [deleteMemo, h]
  · intro d hv a ha
    by_cases hc : s.activeMemoId = some d
    · simp [deleteMemo, hc] at ha
    · simp only [deleteMemo, if_neg hc] at ha
      obtain ⟨m, hmem, hid⟩ := hv a ha
      refine ⟨m, ?_, hid⟩
      simp only [deleteMemo, if_neg hc, List.mem_filter, decide_eq_true_iff]
      exact ⟨hmem, fun hmd => hc (by rw [ha, ← hid, hmd])⟩

/-- Concrete run of C2: deleting the active memo clears the active id and
stops playback. -/
theorem delete_active_clears_and_stops_witness :
    w2.activeMemoId = some memoA.id ∧
    ((deleteMemo memoA.id w2).activeMemoId = none ∧
     (deleteMemo memoA.id w2).isPlaying = false) :=
  ⟨rfl, (delete_active_clears_and_stops w2 memoA.id).1 rfl⟩

/-! ### C3: stopping a recording and the finalized duration -/

/-- Claim C3 evaluated at its failing input: starting a session from the
quiescent state, receiving a chunk and letting the timer reach 3.2 s, then
stopping does finalize exactly one new memo at the front of the store with
the expected title, which becomes active with playback off — but the
memo's duration is the 0 that the `onstop` closure captured when the
session started, not the elapsed 3.2 s the claim (and the spec's own
scenario, `duration≈3.2`) requires. -/
theorem stop_records_zero_duration :
    (timerTick (16 / 5) (dataAvailable [1, 2] (startRecording true baseState))).recordingTime
      = 16 / 5 ∧
    ∃ m, staleRun.memos = [m] ∧
      m.id = idNew ∧
      m.title = "New Recording 1" ∧
      m.duration = 0 ∧
      m.duration ≠ 16 / 5 ∧
      staleRun.activeMemoId = some idNew ∧
      staleRun.isPlaying = false ∧
      staleRun.isRecording = false := by
  refine ⟨rfl, _, rfl, rfl, by decide, rfl, ?_, rfl, rfl, rfl⟩
  show ¬ ((0 : ℚ) = 16 / 5)
  norm_num

/-! ### C4: store ids stay unique -/

/-- Uniqueness invariant for store runs: if the ids already in the store
together with the ids still to be inserted are pairwise distinct, the
final store's ids are pairwise distinct. -/
theorem runOpsFrom_ids_nodup (ops : List StoreOp) :
    ∀ ms : List Memo, ((ms.map Memo.id) ++ insertedIds ops).Nodup →
      ((runOpsFrom ms ops).map Memo.id).Nodup := by
  induction ops with
  | nil =>
    intro ms h
    simpa [runOpsFrom, insertedIds] using h
  | cons op rest ih =>
    intro ms h
    cases op with
    | insertFront m =>
      have hperm :
          ((ms.map Memo.id) ++ insertedIds (StoreOp.insertFront m :: rest)).Perm
            (((m :: ms).map Memo.id) ++ insertedIds rest) := by
        simp only [insertedIds, List.map_cons, List.cons_append]
        exact List.perm_middle
      have h2 := (hperm.nodup_iff).mp h
      have h3 := ih (m :: ms) h2
      simpa [runOpsFrom, applyOp] using h3
    | remove id =>
      have hsub :
          ((ms.filter (fun x => decide (x.id ≠ id))).map Memo.id ++ insertedIds rest).Sublist
            ((ms.map Memo.id) ++ insertedIds rest) :=
        ((List.filter_sublist ms).map Memo.id).append_right _
      have h2 := (by simpa [insertedIds] using h : ((ms.map Memo.id) ++ insertedIds rest).Nodup).sublist hsub
      have h3 := ih _ h2
      simpa [runOpsFrom, applyOp] using h3

/-- Claim C4: for every sequence of `insertFront`/`remove` operations on
the initially empty store whose inserted ids are pairwise distinct (the
program mints them from strictly advancing timestamps), no two memos of
the resulting store share an id. -/
theorem store_ids_unique (ops : List StoreOp) (h : (insertedIds ops).Nodup) :
    ((runOps ops).map Memo.id).Nodup :=
  runOpsFrom_ids_nodup ops [] (by simpa using h)

/-- Concrete run of C4: insert two memos and remove the first. -/
theorem store_ids_unique_witness :
    (insertedIds w4ops).Nodup ∧ ((runOps w4ops).map Memo.id).Nodup :=
  ⟨by decide, store_ids_unique w4ops (by decide)⟩

/-! ### C5: start() during an active session -/

/-- Claim C5 counterexample: in the concrete active-session state `w5`
(one chunk already buffered), calling `startRecording` again with the
permission granted is not a no-op: the state changes (the chunk buffer is
cleared), refuting the claim that `start()` while active changes no
state. -/
theorem start_while_active_changes_state :
    w5.isRecording = true ∧ startRecording true w5 ≠ w5 := by
  refine ⟨rfl, ?_⟩
  intro h
  have h2 := congrArg AppState.audioChunks h
  simp [startRecording, w5, baseState] at h2

/-- Claim C5 amended: `startRecording` carries no guard on the active
flag; invoked while a session is active it does not create a second
concurrent session (the single recorder slot is overwritten and
`isRecording` stays true) but it is not a no-op: the buffered chunks are
discarded.  (Through the UI the call is unreachable while recording, since
the full-screen overlay offers no start control.) -/
theorem start_while_active_replaces_session (s : AppState)
    (hrec : s.isRecording = true) (hch : s.audioChunks ≠ []) :
    (startRecording true s).isRecording = true ∧
    (startRecording true s).recorderSet = true ∧
    (startRecording true s).audioChunks = [] ∧
    startRecording true s ≠ s := by
  refine ⟨rfl, rfl, rfl, ?_⟩
  intro h
  have h2 := congrArg AppState.audioChunks h
  simp only [startRecording] at h2
  exact hch h2.symm

/-- Concrete run of the amended C5 at `w5`. -/
theorem start_while_active_replaces_session_witness :
    w5.isRecording = true ∧ w5.audioChunks ≠ [] ∧
    ((startRecording true w5).isRecording = true ∧
     (startRecording true w5).recorderSet = true ∧
     (startRecording true w5).audioChunks = [] ∧
     startRecording true w5 ≠ w5) :=
  ⟨rfl, by simp [w5, baseState],
   start_while_active_replaces_session w5 rfl (by simp [w5, baseState])⟩

/-! ### C6: the live rate across a track change -/

/-- Claim C6 evaluated at its failing input: with memo A active, the rate
1.5 (from the fixed speed set) is set — state and live handle agree — and
then memo B is selected.  The track change runs the media element load
algorithm, which resets the live handle's rate to the default 1.0, and
the code never re-applies the stored rate (the `[playbackRate]` effect
does not rerun, its state being unchanged): after the change the live
rate is 1.0, not 1.5, while the `playbackRate` state still reads 1.5 —
refuting persistence of the live rate across track changes. -/
theorem rate_resets_on_track_change :
    ((3 / 2 : ℚ) ∈ PLAYBACK_SPEEDS) ∧
    (setRate (3 / 2) w6).audioRate = 3 / 2 ∧
    w6.activeMemoId ≠ some memoB.id ∧
    (playMemo true memoB (setRate (3 / 2) w6)).playbackRate = 3 / 2 ∧
    (playMemo true memoB (setRate (3 / 2) w6)).audioRate = 1 ∧
    (playMemo true memoB (setRate (3 / 2) w6)).audioRate ≠ 3 / 2 := by
  refine ⟨by norm_num [PLAYBACK_SPEEDS, List.mem_cons], rfl, by decide, rfl, rfl, ?_⟩
  show (1 : ℚ) ≠ 3 / 2
  norm_num

/-! ### C7: seeking and skipping stay in range -/

/-- Claim C7 counterexample: in `w7bad` the current position 0 lies in
`[0, duration]` and the scrubber accepts the value 50 (its range maximum
is 100 because the duration is 0), yet the resulting position 50 exceeds
the duration 0 — so seeking does not always leave the position within
`[0, duration]`. -/
theorem seek_can_leave_duration_interval :
    0 ≤ w7bad.playbackTime ∧ w7bad.playbackTime ≤ w7bad.duration ∧
    0 ≤ (50 : ℚ) ∧ (50 : ℚ) ≤ scrubberMax w7bad ∧
    ¬ ((scrubberSeek 50 w7bad).playbackTime ≤ w7bad.duration) := by
  norm_num [w7bad, baseState, scrubberMax, scrubberSeek]

/-- Claim C7 amended: `skip(d)` always lands in `[0, duration]` and equals
seeking to the clamped `position + d`; the scrubber seek stays within
`[0, duration]` whenever the duration is nonzero (when the duration is 0
the range input's maximum falls back to 100 and values up to 100 pass
through unclamped). -/
theorem skip_clamps_and_scrubber_in_range (s : AppState) (d v : ℚ)
    (hd : 0 ≤ s.duration) :
    (0 ≤ (skipTime d s).playbackTime ∧ (skipTime d s).playbackTime ≤ s.duration) ∧
    (skipTime d s).playbackTime
      = (scrubberSeek (min (max (s.playbackTime + d) 0) s.duration) s).playbackTime ∧
    (s.duration ≠ 0 → 0 ≤ v → v ≤ scrubberMax s →
      0 ≤ (scrubberSeek v s).playbackTime ∧ (scrubberSeek v s).playbackTime ≤ s.duration) := by
  refine ⟨⟨?_, ?_⟩, rfl, ?_⟩
  · exact le_min (le_max_right _ _) hd
  · exact min_le_right _ _
  · intro hne hv0 hvmax
    refine ⟨hv0, ?_⟩
    simpa [scrubberSeek, scrubberMax, hne] using hvmax

/-- Concrete run of the amended C7 at `w7` (duration 10, position 5):
skipping +15 clamps to 10 and a scrub to 7 stays in range. -/
theorem skip_clamps_and_scrubber_in_range_witness :
    0 ≤ w7.duration ∧
    ((0 ≤ (skipTime 15 w7).playbackTime ∧ (skipTime 15 w7).playbackTime ≤ w7.duration) ∧
     (skipTime 15 w7).playbackTime
       = (scrubberSeek (min (max (w7.playbackTime + 15) 0) w7.duration) w7).playbackTime ∧
     (w7.duration ≠ 0 → 0 ≤ (7 : ℚ) → (7 : ℚ) ≤ scrubberMax w7 →
       0 ≤ (scrubberSeek 7 w7).playbackTime ∧ (scrubberSeek 7 w7).playbackTime ≤ w7.duration)) :=
  ⟨by norm_num [w7, baseState],
   skip_clamps_and_scrubber_in_range w7 15 7 (by norm_num [w7, baseState])⟩

/-! ### C8: selection with a failing load/play -/

/-- `startsWithChars n h` holds exactly when `n` is a prefix of `h`. -/
theorem startsWithChars_iff (n : List Char) :
    ∀ h : List Char, startsWithChars n h = true ↔ ∃ t, h = n ++ t := by
  induction n with
  | nil =>
    intro h
    simp [startsWithChars]
  | cons a as ih =>
    intro h
    cases h with
    | nil =>
      simp [startsWithChars]
    | cons b bs =>
      simp only [startsWithChars, Bool.and_eq_true, decide_eq_true_iff, List.cons_append]
      constructor
      · rintro ⟨hab, hpre⟩
        obtain ⟨t, ht⟩ := (ih bs).mp hpre
        exact ⟨t, by rw [hab, ht]⟩
      · rintro ⟨t, ht⟩
        injection ht with h1 h2
        exact ⟨h1.symm, (ih bs).mpr ⟨t, h2⟩⟩

/-- `containsSub n h` holds exactly when `n` occurs as a contiguous
substring of `h`. -/
theorem containsSub_iff (n : List Char) :
    ∀ h : List Char, containsSub n h = true ↔ ∃ u v, h = u ++ n ++ v := by
  intro h
  induction h with
  | nil =>
    simp only [containsSub, List.isEmpty_iff]
    constructor
    · intro hn
      exact ⟨[], [], by simp [hn]⟩
    · rintro ⟨u, v, huv⟩
      obtain ⟨hun, hv⟩ := List.append_eq_nil.mp huv.symm
      obtain ⟨hu, hn⟩ := List.append_eq_nil.mp hun
      exact hn
  | cons c hs ih =>
    simp only [containsSub, Bool.or_eq_true, startsWithChars_iff n, ih]
    constructor
    · rintro (⟨t, ht⟩ | ⟨u, v, huv⟩)
      · exact ⟨[], t, by simpa using ht⟩
      · exact ⟨c :: u, v, by simp [huv]⟩
    · rintro ⟨u, v, huv⟩
      cases u with
      | nil =>
        left
        exact ⟨v, by simpa using huv⟩
      | cons c2 u2 =>
        right
        simp only [List.cons_append] at huv
        injection huv with h1 h2
        exact ⟨u2, v, h2⟩

/-- Claim C9: `filteredMemos` is a subsequence of the store (relative
order preserved; the store itself is untouched, the filter being a pure
function of the state) consisting exactly of the memos whose lower-cased
title contains the lower-cased query as a contiguous substring. -/
theorem filteredMemos_exact (s : AppState) :
    List.Sublist (filteredMemos s) s.memos ∧
    ∀ m, m ∈ filteredMemos s ↔
      (m ∈ s.memos ∧ ∃ u v, lowerStr m.title = u ++ lowerStr s.searchQuery ++ v) := by
  constructor
  · exact List.filter_sublist s.memos
  · intro m
    simp only [filteredMemos, List.mem_filter, titleMatches, containsSub_iff]

/-! ### C10: deleting a non-active memo -/

/-- Claim C10: deleting a memo that is not the active one filters exactly
the matching entry out of the store and leaves the active id, the playing
flag, the loaded source, the position and the duration unchanged. -/
theorem delete_inactive_frame (s : AppState) (id : String)
    (h : s.activeMemoId ≠ some id) :
    (deleteMemo id s).memos = s.memos.filter (fun m => decide (m.id ≠ id)) ∧
    (deleteMemo id s).activeMemoId = s.activeMemoId ∧
    (deleteMemo id s).isPlaying = s.isPlaying ∧
    (deleteMemo id s).audioSrc = s.audioSrc ∧
    (deleteMemo id s).playbackTime = s.playbackTime ∧
    (deleteMemo id s).duration = s.duration := by
  simp [deleteMemo, h]

/-- Concrete run of C10: deleting memo B while memo A plays leaves the
playback state intact. -/
theorem delete_inactive_frame_witness :
    w10.activeMemoId ≠ some memoB.id ∧
    ((deleteMemo memoB.id w10).memos
        = w10.memos.filter (fun m => decide (m.id ≠ memoB.id)) ∧
     (deleteMemo memoB.id w10).activeMemoId = w10.activeMemoId ∧
     (deleteMemo memoB.id w10).isPlaying = w10.isPlaying ∧
     (deleteMemo memoB.id w10).audioSrc = w10.audioSrc ∧
     (deleteMemo memoB.id w10).playbackTime = w10.playbackTime ∧
     (deleteMemo memoB.id w10).duration = w10.duration) :=
  ⟨by decide, delete_inactive_frame w10 memoB.id (by decide)⟩

end Voice
